import Mathlib

/-!
Verification of the SHL recommendation system (DragoCodes/SHL_recommender)
against its natural-language specification.

The development shallowly embeds the deterministic parts of the Python
sources:

* `engine2.py` — `SHLRecommendationEngine.recommend`: the post-processing of
  the generative model's raw text reply (fenced-block extraction, JSON
  parsing, regex fallback recovery, key renaming, result limiting, and type
  coercion).  The retrieval and LLM calls are opaque remote services; the
  engine's reply string is therefore a parameter of the embedding.
* `api.py` — the `/recommend` FastAPI handler and its error translation.
* `modification.py` — the catalog CSV transform (`expand_test_type` and the
  row loop).

Python strings are modelled as `List Char`; Python values reachable from
`json.loads` and the handler code are modelled by `PyValue`.  Machine-level
caveats of the embedding (each noted where it matters): regex `\s`,
`str.strip`, `str.isdigit` and `int()` are modelled over their ASCII
behaviour; JSON numbers are modelled as integers (the schema's only numeric
field is an integer duration); Python's `isinstance(x, int)` treats `bool`
as `int`, which the model reproduces.
-/

/-- Python strings are modelled as lists of characters. -/
abbrev Chars := List Char

/-- ASCII whitespace recognised by Python's regex `\s` and `str.strip`
(the embedding models the ASCII subset of Python's unicode whitespace). -/
def isPySpace (c : Char) : Bool :=
  c = ' ' ∨ c = '\t' ∨ c = '\n' ∨ c = '\r' ∨ c = '\x0b' ∨ c = '\x0c'

/-- JSON whitespace (RFC 8259), as skipped by Python's `json.loads`. -/
def isJsonWs (c : Char) : Bool :=
  c = ' ' ∨ c = '\t' ∨ c = '\n' ∨ c = '\r'

def isAsciiDigit (c : Char) : Bool := '0' ≤ c ∧ c ≤ '9'

/-- Numeric value of a digit string (used for `int()` on digit strings). -/
def digitsToNat (s : Chars) : Nat :=
  s.foldl (fun acc c => acc * 10 + (c.toNat - '0'.toNat)) 0

/-- Python `str.strip()` restricted to ASCII whitespace. -/
def pyStrip (s : Chars) : Chars :=
  ((s.dropWhile isPySpace).reverse.dropWhile isPySpace).reverse

/-- Python `str.lower()` (ASCII). -/
def pyLower (s : Chars) : Chars := s.map Char.toLower

/-- Python `int(s)` on a string: strip whitespace, optional sign, at least
one ASCII digit; `none` models the raised `ValueError`.  (Underscore
separators and unicode digits accepted by CPython are not modelled.) -/
def pyIntOfStr (s : Chars) : Option Int :=
  let t := pyStrip s
  match t with
  | '+' :: r => if r ≠ [] ∧ r.all isAsciiDigit then some (digitsToNat r) else none
  | '-' :: r => if r ≠ [] ∧ r.all isAsciiDigit then some (-(digitsToNat r : Int)) else none
  | r => if r ≠ [] ∧ r.all isAsciiDigit then some (digitsToNat r) else none

/-- First index at which `pat` occurs as a substring (the start position of
the leftmost regex match of a literal pattern). -/
def findSub (pat : Chars) : Chars → Option Nat
  | [] => if pat.isPrefixOf [] then some 0 else none
  | c :: t => if pat.isPrefixOf (c :: t) then some 0 else (findSub pat t).map (· + 1)

def containsSub (s pat : Chars) : Bool := (findSub pat s).isSome

/-- Consume a literal prefix, returning the rest. -/
def expectLit (lit s : Chars) : Option Chars :=
  if lit.isPrefixOf s then some (s.drop lit.length) else none

/-- Values of the dynamically-typed Python fragment the engine manipulates:
everything producible by `json.loads` plus `None`. -/
inductive PyValue where
  | none
  | bool (b : Bool)
  | int (n : Int)
  | str (s : Chars)
  | list (xs : List PyValue)
  | dict (kvs : List (Chars × PyValue))
deriving Repr

mutual

def PyValue.decEq : (a b : PyValue) → Decidable (a = b)
  | .none, .none => isTrue rfl
  | .bool x, .bool y =>
      if h : x = y then isTrue (h ▸ rfl)
      else isFalse (fun hh => h (PyValue.bool.inj hh))
  | .int x, .int y =>
      if h : x = y then isTrue (h ▸ rfl)
      else isFalse (fun hh => h (PyValue.int.inj hh))
  | .str x, .str y =>
      if h : x = y then isTrue (h ▸ rfl)
      else isFalse (fun hh => h (PyValue.str.inj hh))
  | .list xs, .list ys =>
      match PyValue.decEqList xs ys with
      | isTrue h => isTrue (h ▸ rfl)
      | isFalse h => isFalse (fun hh => h (PyValue.list.inj hh))
  | .dict xs, .dict ys =>
      match PyValue.decEqKvs xs ys with
      | isTrue h => isTrue (h ▸ rfl)
      | isFalse h => isFalse (fun hh => h (PyValue.dict.inj hh))
  | .none, .bool _ => isFalse (fun h => PyValue.noConfusion h)
  | .none, .int _ => isFalse (fun h => PyValue.noConfusion h)
  | .none, .str _ => isFalse (fun h => PyValue.noConfusion h)
  | .none, .list _ => isFalse (fun h => PyValue.noConfusion h)
  | .none, .dict _ => isFalse (fun h => PyValue.noConfusion h)
  | .bool _, .none => isFalse (fun h => PyValue.noConfusion h)
  | .bool _, .int _ => isFalse (fun h => PyValue.noConfusion h)
  | .bool _, .str _ => isFalse (fun h => PyValue.noConfusion h)
  | .bool _, .list _ => isFalse (fun h => PyValue.noConfusion h)
  | .bool _, .dict _ => isFalse (fun h => PyValue.noConfusion h)
  | .int _, .none => isFalse (fun h => PyValue.noConfusion h)
  | .int _, .bool _ => isFalse (fun h => PyValue.noConfusion h)
  | .int _, .str _ => isFalse (fun h => PyValue.noConfusion h)
  | .int _, .list _ => isFalse (fun h => PyValue.noConfusion h)
  | .int _, .dict _ => isFalse (fun h => PyValue.noConfusion h)
  | .str _, .none => isFalse (fun h => PyValue.noConfusion h)
  | .str _, .bool _ => isFalse (fun h => PyValue.noConfusion h)
  | .str _, .int _ => isFalse (fun h => PyValue.noConfusion h)
  | .str _, .list _ => isFalse (fun h => PyValue.noConfusion h)
  | .str _, .dict _ => isFalse (fun h => PyValue.noConfusion h)
  | .list _, .none => isFalse (fun h => PyValue.noConfusion h)
  | .list _, .bool _ => isFalse (fun h => PyValue.noConfusion h)
  | .list _, .int _ => isFalse (fun h => PyValue.noConfusion h)
  | .list _, .str _ => isFalse (fun h => PyValue.noConfusion h)
  | .list _, .dict _ => isFalse (fun h => PyValue.noConfusion h)
  | .dict _, .none => isFalse (fun h => PyValue.noConfusion h)
  | .dict _, .bool _ => isFalse (fun h => PyValue.noConfusion h)
  | .dict _, .int _ => isFalse (fun h => PyValue.noConfusion h)
  | .dict _, .str _ => isFalse (fun h => PyValue.noConfusion h)
  | .dict _, .list _ => isFalse (fun h => PyValue.noConfusion h)

def PyValue.decEqList : (xs ys : List PyValue) → Decidable (xs = ys)
  | [], [] => isTrue rfl
  | [], _ :: _ => isFalse (fun h => List.noConfusion h)
  | _ :: _, [] => isFalse (fun h => List.noConfusion h)
  | x :: xt, y :: yt =>
      match PyValue.decEq x y with
      | isTrue h1 =>
          match PyValue.decEqList xt yt with
          | isTrue h2 => isTrue (h1 ▸ h2 ▸ rfl)
          | isFalse h2 => isFalse (fun hh => h2 (List.cons.inj hh).2
)
      | isFalse h1 => isFalse (fun hh => h1 (List.cons.inj hh).1)

def PyValue.decEqKvs : (xs ys : List (Chars × PyValue)) → Decidable (xs = ys)
  | [], [] => isTrue rfl
  | [], _ :: _ => isFalse (fun h => List.noConfusion h)
  | _ :: _, [] => isFalse (fun h => List.noConfusion h)
  | (k1, v1) :: xt, (k2, v2) :: yt =>
      if hk : k1 = k2 then
          match PyValue.decEq v1 v2 with
          | isTrue hv =>
              match PyValue.decEqKvs xt yt with
              | isTrue ht => isTrue (hk ▸ hv ▸ ht ▸ rfl)
              | isFalse ht => isFalse (fun hh => ht (List.cons.inj hh).2)
          | isFalse hv =>
              isFalse (fun hh => hv (congrArg Prod.snd (List.cons.inj hh).1))
      else
        isFalse (fun hh => hk (congrArg Prod.fst (List.cons.inj hh).1))

end

instance : DecidableEq PyValue := PyValue.decEq

/-- Dictionary lookup (keys are unique by construction: JSON object parsing
and item assignment both overwrite an existing key). -/
def dictGet (kvs : List (Chars × PyValue)) (k : Chars) : Option PyValue :=
  match kvs with
  | [] => Option.none
  | (k', v) :: t => if k' = k then some v else dictGet t k

/-- Python `d[k] = v`: replace in place when the key exists (its insertion
position is kept), otherwise append. -/
def dictSet (kvs : List (Chars × PyValue)) (k : Chars) (v : PyValue) :
    List (Chars × PyValue) :=
  match kvs with
  | [] => [(k, v)]
  | (k', w) :: t => if k' = k then (k', v) :: t else (k', w) :: dictSet t k v

/-- Python `d.pop(k)`'s removal effect. -/
def dictRemove (kvs : List (Chars × PyValue)) (k : Chars) :
    List (Chars × PyValue) :=
  match kvs with
  | [] => []
  | (k', w) :: t => if k' = k then t else (k', w) :: dictRemove t k

/-- Python `x in v` for a string needle; raises `TypeError` on
non-container values (modelled as `Except.error`). -/
def pyContains (v : PyValue) (needle : Chars) : Except Chars Bool :=
  match v with
  | .dict kvs => .ok (dictGet kvs needle).isSome
  | .list xs => .ok (xs.contains (.str needle))
  | .str s => .ok (containsSub s needle)
  | _ => .error "TypeError: argument of type is not iterable".data

/-- Python `v[key]` with a string key. -/
def pyGetItemStr (v : PyValue) (key : Chars) : Except Chars PyValue :=
  match v with
  | .dict kvs =>
      match dictGet kvs key with
      | some x => .ok x
      | Option.none => .error "KeyError".data
  | .list _ => .error "TypeError: list indices must be integers".data
  | .str _ => .error "TypeError: string indices must be integers".data
  | _ => .error "TypeError: object is not subscriptable".data

/-- Python `v[:m]` for a natural bound (list and string slicing; everything
else raises `TypeError`). -/
def pySliceTo (v : PyValue) (m : Nat) : Except Chars PyValue :=
  match v with
  | .list xs => .ok (.list (xs.take m))
  | .str s => .ok (.str (s.take m))
  | _ => .error "TypeError: object is not subscriptable".data

/-- Python `isinstance(v, int)`: `True` also for booleans. -/
def isInstInt (v : PyValue) : Bool :=
  match v with
  | .int _ => true
  | .bool _ => true
  | _ => false

def PyValue.isList (v : PyValue) : Bool :=
  match v with
  | .list _ => true
  | _ => false

def PyValue.isStr (v : PyValue) : Bool :=
  match v with
  | .str _ => true
  | _ => false

/-- Python `int(v)` inside a `try/except (ValueError, TypeError)` block:
`none` stands for either caught exception. -/
def pyToIntOpt (v : PyValue) : Option Int :=
  match v with
  | .int n => some n
  | .bool b => some (if b then 1 else 0)
  | .str s => pyIntOfStr s
  | _ => Option.none

/-- Python truthiness. -/
def pyTruthy (v : PyValue) : Bool :=
  match v with
  | .none => false
  | .bool b => b
  | .int n => n != 0
  | .str s => !s.isEmpty
  | .list xs => !xs.isEmpty
  | .dict kvs => !kvs.isEmpty

/-- Iterating a Python value (`for x in v`): lists yield elements, strings
yield one-character strings, dicts yield their keys. -/
def pyIterElems (v : PyValue) : Except Chars (List PyValue) :=
  match v with
  | .list xs => .ok xs
  | .str s => .ok (s.map fun c => .str [c])
  | .dict kvs => .ok (kvs.map fun kv => .str kv.1)
  | _ => .error "TypeError: object is not iterable".data

/-- Effectful map used to model Python loops whose body may raise. -/
def mapMExc (f : PyValue → Except Chars PyValue) :
    List PyValue → Except Chars (List PyValue)
  | [] => .ok []
  | x :: t => do
      let y ← f x
      let ys ← mapMExc f t
      .ok (y :: ys)

/-! ## `json.loads` (engine2.py line 130)

A recursive-descent parser for the JSON fragment the engine's schema uses.
Numbers are modelled as integers with JSON's leading-zero rule (the schema's
only numeric field is the integer `duration`; fractional or exponent forms
are not modelled and count as parse failures, which the engine treats the
same way as any other `json.JSONDecodeError`).  Object keys follow CPython's
last-occurrence-wins dict construction. -/

/-- Hexadecimal digit test and value, for `\u` escapes. -/
def isHexDigitCh (c : Char) : Bool :=
  isAsciiDigit c ∨ ('a' ≤ c ∧ c ≤ 'f') ∨ ('A' ≤ c ∧ c ≤ 'F')

def hexVal (c : Char) : Nat :=
  if isAsciiDigit c then c.toNat - '0'.toNat
  else if 'a' ≤ c ∧ c ≤ 'f' then c.toNat - 'a'.toNat + 10
  else c.toNat - 'A'.toNat + 10

/-- Body of a JSON string literal after the opening quote: returns the
decoded characters and the rest after the closing quote.  Unescaped control
characters are rejected, as `json.loads` does.  (A `\u` escape in the
surrogate range would denote a lone surrogate in CPython; `Char.ofNat` maps
it to NUL here — no claim depends on surrogate escapes.) -/
def jsonStrBody : Chars → Option (Chars × Chars)
  | [] => Option.none
  | '"' :: t => some ([], t)
  | '\\' :: e :: t =>
      match e with
      | '"' => (jsonStrBody t).map (fun p => ('"' :: p.1, p.2))
      | '\\' => (jsonStrBody t).map (fun p => ('\\' :: p.1, p.2))
      | '/' => (jsonStrBody t).map (fun p => ('/' :: p.1, p.2))
      | 'b' => (jsonStrBody t).map (fun p => ('\x08' :: p.1, p.2))
      | 'f' => (jsonStrBody t).map (fun p => ('\x0c' :: p.1, p.2))
      | 'n' => (jsonStrBody t).map (fun p => ('\n' :: p.1, p.2))
      | 'r' => (jsonStrBody t).map (fun p => ('\r' :: p.1, p.2))
      | 't' => (jsonStrBody t).map (fun p => ('\t' :: p.1, p.2))
      | 'u' =>
          match t with
          | a :: b :: c :: d :: t' =>
              if isHexDigitCh a ∧ isHexDigitCh b ∧ isHexDigitCh c ∧ isHexDigitCh d then
                let n := ((hexVal a * 16 + hexVal b) * 16 + hexVal c) * 16 + hexVal d
                (jsonStrBody t').map (fun p => (Char.ofNat n :: p.1, p.2))
              else Option.none
          | _ => Option.none
      | _ => Option.none
  | [c] => if c.toNat < 32 then Option.none else Option.none
  | c :: t =>
      if c.toNat < 32 then Option.none
      else (jsonStrBody t).map (fun p => (c :: p.1, p.2))

/-- JSON integer literal (optional minus, no leading zeros), returning the
value and the rest. -/
def jsonNumBody (s : Chars) : Option (Int × Chars) :=
  let core : Chars → Option (Nat × Chars) := fun u =>
    match u with
    | '0' :: r =>
        match r with
        | c :: _ => if isAsciiDigit c then Option.none else some (0, r)
        | [] => some (0, [])
    | c :: _ =>
        if isAsciiDigit c then
          some (digitsToNat (u.takeWhile isAsciiDigit), u.dropWhile isAsciiDigit)
        else Option.none
    | [] => Option.none
  match s with
  | '-' :: r => (core r).map (fun p => (-(p.1 : Int), p.2))
  | _ => (core s).map (fun p => ((p.1 : Int), p.2))

def skipJsonWs (s : Chars) : Chars := s.dropWhile isJsonWs

mutual

/-- One JSON value, fuel-bounded (fuel exceeds any possible recursion). -/
def jsonVal : Nat → Chars → Option (PyValue × Chars)
  | 0, _ => Option.none
  | fuel + 1, s =>
      let s := skipJsonWs s
      match s with
      | 't' :: t => (expectLit "rue".data t).map (fun r => (.bool true, r))
      | 'f' :: t => (expectLit "alse".data t).map (fun r => (.bool false, r))
      | 'n' :: t => (expectLit "ull".data t).map (fun r => (.none, r))
      | '"' :: t => (jsonStrBody t).map (fun p => (.str p.1, p.2))
      | '[' :: t =>
          let t' := skipJsonWs t
          match t' with
          | ']' :: r => some (.list [], r)
          | _ =>
              (jsonArrItems fuel t').map (fun p => (.list p.1, p.2))
      | '{' :: t =>
          let t' := skipJsonWs t
          match t' with
          | '}' :: r => some (.dict [], r)
          | _ =>
              (jsonObjItems fuel t').map
                (fun p => (.dict (p.1.foldl (fun acc kv => dictSet acc kv.1 kv.2) []), p.2))
      | _ => (jsonNumBody s).map (fun p => (.int p.1, p.2))

/-- Array elements after `[` (first element about to start). -/
def jsonArrItems : Nat → Chars → Option (List PyValue × Chars)
  | 0, _ => Option.none
  | fuel + 1, s => do
      let (v, r) ← jsonVal fuel s
      let r := skipJsonWs r
      match r with
      | ',' :: r' => (jsonArrItems fuel r').map (fun p => (v :: p.1, p.2))
      | ']' :: r' => some ([v], r')
      | _ => Option.none

/-- Object members after `{` (first key about to start), in source order;
the caller folds them with `dictSet`, which reproduces CPython's
last-occurrence-wins dict construction. -/
def jsonObjItems : Nat → Chars → Option (List (Chars × PyValue) × Chars)
  | 0, _ => Option.none
  | fuel + 1, s =>
      match skipJsonWs s with
      | '"' :: t => do
          let (k, r) ← jsonStrBody t
          let r := skipJsonWs r
          match r with
          | ':' :: r' => do
              let (v, r'') ← jsonVal fuel r'
              let r'' := skipJsonWs r''
              match r'' with
              | ',' :: r3 =>
                  (jsonObjItems fuel r3).map (fun p => ((k, v) :: p.1, p.2))
              | '}' :: r3 => some ([(k, v)], r3)
              | _ => Option.none
          | _ => Option.none
      | _ => Option.none

end

/-- `json.loads`: one JSON value with only whitespace around it.  `none`
models a raised `json.JSONDecodeError`. -/
def json_loads (s : Chars) : Option PyValue :=
  match jsonVal (2 * s.length + 4) s with
  | some (v, rest) => if (skipJsonWs rest).isEmpty then some v else Option.none
  | Option.none => Option.none

/-! ## Fenced-block extraction (engine2.py lines 121-127)

`re.search(r"```json\s*([\s\S]*?)\s*```", raw_response)`: the match starts
at the first occurrence of ````json` that is followed by a later ```` ``` ``;
the lazy group together with the two greedy `\s*` yields the text between
them with surrounding whitespace stripped. -/

def extractFenced (raw : Chars) : Option Chars :=
  match findSub "```json".data raw with
  | Option.none => Option.none
  | some i =>
      let rest := raw.drop (i + 7)
      match findSub "```".data rest with
      | Option.none => Option.none
      | some j => some (pyStrip (rest.take j))

/-- The string handed to `json.loads` (engine2.py lines 121-127): the fenced
block's content when one is found, otherwise the whole reply. -/
def jsonPayload (raw : Chars) : Chars :=
  match extractFenced raw with
  | some s => s
  | Option.none => raw

/-! ## Fallback regex extraction (engine2.py lines 133-185) -/

def dropPyWs (s : Chars) : Chars := s.dropWhile isPySpace

/-- The lazy group of `\[(.*?)\]\s*}` after the `[` has been consumed: the
shortest content whose closing `]` is followed, after whitespace, by `}`. -/
def scanCloseBracket : Chars → Option Chars
  | [] => Option.none
  | ']' :: t =>
      match dropPyWs t with
      | '}' :: _ => some []
      | _ => (scanCloseBracket t).map (fun g => ']' :: g)
  | c :: t => (scanCloseBracket t).map (fun g => c :: g)

/-- Attempt of `{\s*"recommended_assessments"\s*:\s*\[(.*?)\]\s*}` at the
start of `s`, returning group 1. -/
def matchFallbackAt (s : Chars) : Option Chars := do
  let t ← expectLit "\x7b".data s
  let t := dropPyWs t
  let t ← expectLit "\"recommended_assessments\"".data t
  let t := dropPyWs t
  let t ← expectLit ":".data t
  let t := dropPyWs t
  let t ← expectLit "[".data t
  scanCloseBracket t

/-- `re.search` of the fallback structure pattern over the whole raw reply
(leftmost successful start). -/
def fallbackFind : Chars → Option Chars
  | [] => Option.none
  | c :: t =>
      match matchFallbackAt (c :: t) with
      | some g => some g
      | Option.none => fallbackFind t

/-- Content up to the first `}` (the lazy group of `{\s*(.*?)}` under
`re.DOTALL`), with the rest after that `}`. -/
def takeUntilRBrace : Chars → Option (Chars × Chars)
  | [] => Option.none
  | '}' :: r => some ([], r)
  | c :: r => (takeUntilRBrace r).map (fun p => (c :: p.1, p.2))

/-- `re.findall(r"{\s*(.*?)}", inner, re.DOTALL)`: non-overlapping matches
scanned left to right. -/
def findItemsGo : Nat → Chars → List Chars
  | 0, _ => []
  | _ + 1, [] => []
  | fuel + 1, '{' :: t =>
      match takeUntilRBrace (dropPyWs t) with
      | some (content, rest) => content :: findItemsGo fuel rest
      | Option.none => findItemsGo fuel t
  | fuel + 1, _ :: t => findItemsGo fuel t

def findItems (s : Chars) : List Chars := findItemsGo (s.length + 1) s

/-- The lazy group of `"(.*?)"` without `re.DOTALL`: content up to the next
quote, failing if a newline comes first. -/
def takeToQuoteNoNL : Chars → Option Chars
  | [] => Option.none
  | '"' :: _ => some []
  | '\n' :: _ => Option.none
  | c :: t => (takeToQuoteNoNL t).map (fun g => c :: g)

/-- Attempt of `"FIELD"\s*:\s*"(.*?)"` at the start of `s`. -/
def matchStrFieldAt (fname s : Chars) : Option Chars := do
  let t ← expectLit ('"' :: fname ++ ['"']) s
  let t := dropPyWs t
  let t ← expectLit ":".data t
  let t := dropPyWs t
  let t ← expectLit "\"".data t
  takeToQuoteNoNL t

/-- `re.search` of the per-field string pattern (engine2.py lines 173-180). -/
def findStrField (fname : Chars) : Chars → Option Chars
  | [] => Option.none
  | c :: t =>
      match matchStrFieldAt fname (c :: t) with
      | some g => some g
      | Option.none => findStrField fname t

/-- Attempt of `"duration"\s*:\s*(\d+)` at the start of `s` (the greedy
`\d+` group as a number). -/
def matchDurAt (s : Chars) : Option Nat := do
  let t ← expectLit "\"duration\"".data s
  let t := dropPyWs t
  let t ← expectLit ":".data t
  let t := dropPyWs t
  let ds := t.takeWhile isAsciiDigit
  if ds.isEmpty then Option.none else some (digitsToNat ds)

/-- `re.search` of the duration pattern (engine2.py lines 163-171). -/
def findDurField : Chars → Option Nat
  | [] => Option.none
  | c :: t =>
      match matchDurAt (c :: t) with
      | some n => some n
      | Option.none => findDurField t

/-- Content up to the first `]` (the lazy group of `\[(.*?)\]` under
`re.DOTALL`). -/
def takeUntilRBracket : Chars → Option Chars
  | [] => Option.none
  | ']' :: _ => some []
  | c :: t => (takeUntilRBracket t).map (fun g => c :: g)

/-- Attempt of `"test_type"\s*:\s*\[(.*?)\]` at the start of `s`. -/
def matchTTAt (s : Chars) : Option Chars := do
  let t ← expectLit "\"test_type\"".data s
  let t := dropPyWs t
  let t ← expectLit ":".data t
  let t := dropPyWs t
  let t ← expectLit "[".data t
  takeUntilRBracket t

/-- `re.search` of the test-type array pattern (engine2.py lines 152-162). -/
def findTTField : Chars → Option Chars
  | [] => Option.none
  | c :: t =>
      match matchTTAt (c :: t) with
      | some g => some g
      | Option.none => findTTField t

/-- `re.findall(r'"([^"]+)"', types_str)`: the non-empty quoted runs, left
to right and non-overlapping. -/
def findQuotedGo : Nat → Chars → List Chars
  | 0, _ => []
  | _ + 1, [] => []
  | fuel + 1, '"' :: t =>
      let run := t.takeWhile (fun c => c ≠ '"')
      let rest := t.dropWhile (fun c => c ≠ '"')
      match rest with
      | '"' :: r =>
          if run.isEmpty then findQuotedGo fuel t
          else run :: findQuotedGo fuel r
      | _ => findQuotedGo fuel t
  | fuel + 1, _ :: t => findQuotedGo fuel t

def findQuoted (s : Chars) : List Chars := findQuotedGo (s.length + 1) s

/-- One reconstructed record of the fallback loop (engine2.py lines
142-180): field order as written, missing string fields become `""`,
missing duration `0`, missing test-type `[]`. -/
def fallbackItemRec (item : Chars) : PyValue :=
  .dict
    [ ("url".data,
        .str (match findStrField "url".data item with
              | some v => pyStrip v
              | Option.none => [])),
      ("adaptive_support".data,
        .str (match findStrField "adaptive_support".data item with
              | some v => pyStrip v
              | Option.none => [])),
      ("description".data,
        .str (match findStrField "description".data item with
              | some v => pyStrip v
              | Option.none => [])),
      ("duration".data,
        .int (match findDurField item with
              | some n => (n : Int)
              | Option.none => 0)),
      ("remote_support".data,
        .str (match findStrField "remote_support".data item with
              | some v => pyStrip v
              | Option.none => [])),
      ("test_type".data,
        .list (match findTTField item with
               | some g => (findQuoted g).map (fun v => .str v)
               | Option.none => [])) ]

/-- `rec.get("url") != ""` (engine2.py line 181). -/
def urlKeep (rec : PyValue) : Bool :=
  match rec with
  | .dict kvs =>
      match dictGet kvs "url".data with
      | some v => v ≠ .str []
      | Option.none => true
  | _ => true

/-- The whole fallback branch (engine2.py lines 133-185): when the
structure pattern matches, each item is reconstructed field-by-field and
kept unless its url is empty; otherwise the empty result. -/
def fallbackParse (raw : Chars) : PyValue :=
  match fallbackFind raw with
  | some inner =>
      .dict [("recommended_assessments".data,
              .list (((findItems inner).map fallbackItemRec).filter urlKeep))]
  | Option.none => .dict [("recommended_assessments".data, .list [])]

/-! ## Post-processing stages of `recommend` (engine2.py lines 187-225) -/

/-- First half of the per-record coercion loop body (engine2.py lines
210-214): a present, non-`isinstance`-int duration is re-parsed with
`int()`, defaulting to `0` on `ValueError`/`TypeError`.  On non-dict loop
elements the membership test and item access follow Python's semantics,
including the raised `TypeError` when a string element contains the field
name. -/
def fixDur (rec : PyValue) : Except Chars PyValue := do
  let c ← pyContains rec "duration".data
  if c then do
    let dv ← pyGetItemStr rec "duration".data
    if ¬ isInstInt dv then
      let nv := match pyToIntOpt dv with
        | some n => PyValue.int n
        | Option.none => PyValue.int 0
      match rec with
      | .dict kvs => pure (PyValue.dict (dictSet kvs "duration".data nv))
      | _ => Except.error "TypeError: item assignment".data
    else pure rec
  else pure rec

/-- The second half of the loop body (engine2.py lines 216-220). -/
def fixTT (rec : PyValue) : Except Chars PyValue := do
  let c ← pyContains rec "test_type".data
  if c then do
    let tv ← pyGetItemStr rec "test_type".data
    if ¬ tv.isList then
      let nv := match tv with
        | .str s => PyValue.list [.str s]
        | _ => PyValue.list []
      match rec with
      | .dict kvs => pure (PyValue.dict (dictSet kvs "test_type".data nv))
      | _ => Except.error "TypeError: item assignment".data
    else pure rec
  else pure rec

/-- The whole loop body (engine2.py lines 209-220): duration coercion,
then test-type coercion on the (possibly mutated) record. -/
def fixRec (rec : PyValue) : Except Chars PyValue := do
  let rec2 ← fixDur rec
  fixTT rec2

/-- Key renaming (engine2.py lines 188-194): move a `recommendations` entry
to `recommended_assessments` when only the former is present; `in` and
`.pop` raise on the value shapes Python rejects. -/
def stageRename (v : PyValue) : Except Chars PyValue := do
  let c1 ← pyContains v "recommendations".data
  if c1 then do
    let c2 ← pyContains v "recommended_assessments".data
    if ¬ c2 then
      match v with
      | .dict kvs =>
          match dictGet kvs "recommendations".data with
          | some pv =>
              pure (.dict (dictSet (dictRemove kvs "recommendations".data)
                "recommended_assessments".data pv))
          | Option.none => Except.error "KeyError: recommendations".data
      | .list _ => Except.error "TypeError: pop expected an integer".data
      | .str _ => Except.error "AttributeError: str object has no pop".data
      | _ => Except.error "AttributeError: object has no pop".data
    else pure v
  else pure v

/-- Result limiting (engine2.py lines 196-206): slice the entry to
`max_results` when the key is present, otherwise replace the whole value by
the empty result. -/
def stageLimit (v : PyValue) (max_results : Nat) : Except Chars PyValue := do
  let c ← pyContains v "recommended_assessments".data
  if c then do
    let cur ← pyGetItemStr v "recommended_assessments".data
    let sliced ← pySliceTo cur max_results
    match v with
    | .dict kvs => pure (.dict (dictSet kvs "recommended_assessments".data sliced))
    | _ => Except.error "TypeError: item assignment".data
  else pure (.dict [("recommended_assessments".data, .list [])])

/-- Type-coercion loop (engine2.py lines 208-220) over
`recommendations.get("recommended_assessments", [])`: list values are
mutated element-wise; iterating a string or a dict binds copies, so only
exceptions are observable; other values are not iterable. -/
def stageCoerce (v : PyValue) : Except Chars PyValue :=
  match v with
  | .dict kvs =>
      match dictGet kvs "recommended_assessments".data with
      | some (.list xs) => do
          let ys ← mapMExc fixRec xs
          pure (.dict (dictSet kvs "recommended_assessments".data (.list ys)))
      | some (.str s) => do
          let _ ← mapMExc fixRec (s.map fun c => .str [c])
          pure v
      | some (.dict inner) => do
          let _ ← mapMExc fixRec (inner.map fun kv => .str kv.1)
          pure v
      | some _ => Except.error "TypeError: object is not iterable".data
      | Option.none => do
          let _ ← mapMExc fixRec []
          pure v
  | _ => Except.error "AttributeError: object has no attribute get".data

/-- `recommend` after the payload string has been chosen: parse it (with
the regex fallback over the raw reply on `JSONDecodeError`), then rename,
limit and coerce (engine2.py lines 129-222). -/
def recommendFromPayload (payload raw : Chars) (max_results : Nat) :
    Except Chars PyValue := do
  let parsed :=
    match json_loads payload with
    | some v => v
    | Option.none => fallbackParse raw
  let r1 ← stageRename parsed
  let r2 ← stageLimit r1 max_results
  stageCoerce r2

/-- The body of `SHLRecommendationEngine.recommend` for a given raw
generative-model reply; an uncaught exception is the `error` case. -/
def recommendExc (raw : Chars) (max_results : Nat) : Except Chars PyValue :=
  recommendFromPayload (jsonPayload raw) raw max_results

/-- `SHLRecommendationEngine.recommend` (engine2.py lines 113-225): the
outer `try/except` turns any exception into
`{"error": str(e), "recommended_assessments": []}`.  The retrieval and LLM
stages are opaque remote calls; `raw` is the reply string they produce, and
`max_results` is the caller's bound (its callers pass the non-negative
counts 10 or the default). -/
def recommend (raw : Chars) (max_results : Nat) : PyValue :=
  match recommendExc raw max_results with
  | .ok v => v
  | .error e =>
      .dict [("error".data, .str e),
             ("recommended_assessments".data, .list [])]

/-- `recommend` with Python's default `max_results=10`. -/
def recommendDefault (raw : Chars) : PyValue := recommend raw 10

/-- The value under `recommended_assessments` in a returned object, as a
list (the empty list when the entry is absent or not a list). -/
def recsOf (v : PyValue) : List PyValue :=
  match v with
  | .dict kvs =>
      match dictGet kvs "recommended_assessments".data with
      | some (.list xs) => xs
      | _ => []
  | _ => []

/-- The `error` entry of a returned object, when any. -/
def errorOf (v : PyValue) : Option PyValue :=
  match v with
  | .dict kvs => dictGet kvs "error".data
  | _ => Option.none

/-- A returned object that is a dict carrying the
`recommended_assessments` key. -/
def hasRecKey (v : PyValue) : Bool :=
  match v with
  | .dict kvs => (dictGet kvs "recommended_assessments".data).isSome
  | _ => false

/-- A record's entry under a key, when the record is a dict and the key is
present. -/
def fieldOf (rec : PyValue) (k : Chars) : Option PyValue :=
  match rec with
  | .dict kvs => dictGet kvs k
  | _ => Option.none

/-! ## Service layer (api.py) -/

/-- Outcome of one HTTP request at the service boundary: a normal JSON
body, or a FastAPI `HTTPException` with a status code and a detail
string. -/
inductive ApiResult where
  | ok (body : PyValue)
  | httpError (status : Nat) (detail : Chars)
deriving Repr, DecidableEq

/-- `d.get(k, default)`; on a non-dict Python raises `AttributeError`. -/
def pyDictGetD (v : PyValue) (k : Chars) (d : PyValue) : Except Chars PyValue :=
  match v with
  | .dict kvs => .ok ((dictGet kvs k).getD d)
  | _ => .error "AttributeError: object has no attribute get".data

/-- Python `int(v)` outside any `try`: the raised
`ValueError`/`TypeError` propagates. -/
def pyIntCast (v : PyValue) : Except Chars Int :=
  match v with
  | .int n => .ok n
  | .bool b => .ok (if b then 1 else 0)
  | .str s =>
      match pyIntOfStr s with
      | some n => .ok n
      | Option.none => .error "ValueError: invalid literal for int".data
  | _ => .error "TypeError: int argument must be a string or a number".data

/-- One formatted assessment of the legacy-schema branch (api.py lines
92-107), with Python's evaluation order and conditional `int()` coercion
guarded by truthiness. -/
def formatAssessment (a : PyValue) : Except Chars PyValue := do
  let url ← pyDictGetD a "url".data (.str [])
  let adaptive ← pyDictGetD a "adaptive_irt_support".data (.str "No".data)
  let desc ← pyDictGetD a "assessment_name".data (.str [])
  let durRaw ← pyDictGetD a "duration".data .none
  let dur ←
    if pyTruthy durRaw then do
      let d0 ← pyDictGetD a "duration".data (.int 0)
      let n ← pyIntCast d0
      pure (PyValue.int n)
    else pure (PyValue.int 0)
  let remote ← pyDictGetD a "remote_testing_support".data (.str "No".data)
  let ttRaw ← pyDictGetD a "test_type".data .none
  let tt ←
    if ttRaw.isStr then do
      let t0 ← pyDictGetD a "test_type".data (.str "Unknown".data)
      pure (PyValue.list [t0])
    else pyDictGetD a "test_type".data (.list [.str "Unknown".data])
  pure (.dict
    [("url".data, url),
     ("adaptive_support".data, adaptive),
     ("description".data, desc),
     ("duration".data, dur),
     ("remote_support".data, remote),
     ("test_type".data, tt)])

/-- The `try` block of the `/recommend` handler (api.py lines 79-115),
given the engine call's outcome: pass the result through when it already
carries `recommended_assessments`, translate a legacy `recommendations`
payload, or fall back to the empty response. -/
def handlerBody (engineRes : Except Chars PyValue) : Except Chars PyValue := do
  let results ← engineRes
  let hasKey ← pyContains results "recommended_assessments".data
  if ¬ hasKey then do
    let hasRecs ← pyContains results "recommendations".data
    if hasRecs then do
      let assessments ← pyGetItemStr results "recommendations".data
      let elems ← pyIterElems assessments
      let formatted ← mapMExc formatAssessment elems
      pure (.dict [("recommended_assessments".data, .list formatted)])
    else pure (.dict [("recommended_assessments".data, .list [])])
  else pure results

/-- `get_recommendations` (api.py lines 68-119): the surrounding
`except Exception` turns any exception into
`HTTPException(500, "Error generating recommendations: ...")`. -/
def get_recommendations (engineRes : Except Chars PyValue) : ApiResult :=
  match handlerBody engineRes with
  | .ok v => .ok v
  | .error e => .httpError 500 ("Error generating recommendations: ".data ++ e)

/-- The `/recommend` request path including the `get_engine` dependency
(api.py lines 51-65): an engine-initialization failure becomes
`HTTPException(500, "Failed to initialize recommendation engine: ...")`
before the handler runs. -/
def recommendEndpointWith (initRes : Except Chars Unit)
    (engineRes : Except Chars PyValue) : ApiResult :=
  match initRes with
  | .error e =>
      .httpError 500 ("Failed to initialize recommendation engine: ".data ++ e)
  | .ok _ => get_recommendations engineRes

/-- `RecommendationRequest` validation (api.py lines 27-35): the model
declares only `query`; any other field of the request body — in particular
the `max_results` the UI sends (app.py line 18) — is ignored. -/
def parseRecommendationRequest (body : PyValue) : Except Chars Chars :=
  match body with
  | .dict kvs =>
      match dictGet kvs "query".data with
      | some (.str q) => .ok q
      | some _ => .error "validation error: query must be a string".data
      | Option.none => .error "validation error: query field required".data
  | _ => .error "validation error: body must be an object".data

/-- The full `POST /recommend` data path for a request body, with the
generative model's reply abstracted as `rawResp`: validate the request,
then call `engine.recommend(request.query, max_results=10)` (api.py line
81) and run the handler. -/
def recommendApi (rawResp : Chars) (body : PyValue) : ApiResult :=
  match parseRecommendationRequest body with
  | .error e => .httpError 422 e
  | .ok _q => get_recommendations (.ok (recommend rawResp 10))

/-! ## Catalog transform (modification.py) -/

/-- The `test_type_mapping` table (modification.py lines 6-15). -/
def ttFull (c : Char) : Option Chars :=
  if c = 'A' then some "Ability & Aptitude".data
  else if c = 'B' then some "Biodata & Situational Judgement".data
  else if c = 'C' then some "Competencies".data
  else if c = 'D' then some "Development & 360".data
  else if c = 'E' then some "Assessment Exercises".data
  else if c = 'K' then some "Knowledge & Skills".data
  else if c = 'P' then some "Personality & Behaviour".data
  else if c = 'S' then some "Simulations".data
  else Option.none

/-- `expand_test_type` (modification.py lines 5-22): each known code
letter expands to its full category name, in input order; unknown letters
are dropped. -/
def expand_test_type (code : Chars) : List Chars := code.filterMap ttFull

/-- Python `s.isdigit()` over ASCII digits. -/
def pyIsDigit (s : Chars) : Bool := !s.isEmpty ∧ s.all isAsciiDigit

/-- A raw scraped CSV row as `csv.DictReader` yields it: a missing column
is `none`, matching `row.get(f)` returning `None`. -/
structure RawRow where
  url : Option Chars
  irt_support : Option Chars
  description : Option Chars
  assessment_length : Option Chars
  remote_support : Option Chars
  test_type : Option Chars

/-- A transformed catalog record with the consistent schema. -/
structure TransRow where
  url : Chars
  adaptive_support : Chars
  description : Chars
  duration : Int
  remote_support : Chars
  test_type : List Chars
deriving Repr, DecidableEq

/-- The row loop body (modification.py lines 50-69): incomplete rows
(falsy `url` or `test_type`) are skipped; flags become `Yes` exactly when
the source string lowercases to `true`; `duration` is the parsed
`assessment_length` when it is a digit string and `0` otherwise. -/
def transformRow (row : RawRow) : Option TransRow :=
  if (row.url.getD []).isEmpty ∨ (row.test_type.getD []).isEmpty then
    Option.none
  else
    some
      { url := row.url.getD []
        adaptive_support :=
          if pyLower (row.irt_support.getD []) = "true".data then "Yes".data
          else "No".data
        description := row.description.getD []
        duration :=
          if pyIsDigit (row.assessment_length.getD []) then
            (digitsToNat (row.assessment_length.getD []) : Int)
          else 0
        remote_support :=
          if pyLower (row.remote_support.getD []) = "true".data then "Yes".data
          else "No".data
        test_type := expand_test_type (row.test_type.getD []) }

/-! ## Structural lemmas about the engine pipeline -/

theorem dictGet_dictSet_self (kvs : List (Chars × PyValue)) (k : Chars)
    (v : PyValue) : dictGet (dictSet kvs k v) k = some v := by
  induction kvs with
  | nil => simp [dictSet, dictGet]
  | cons hd t ih =>
      obtain ⟨k', w⟩ := hd
      by_cases h : k' = k
      · simp [dictSet, dictGet, h]
      · simp [dictSet, dictGet, h, ih]

theorem dictGet_dictSet_ne (kvs : List (Chars × PyValue)) (k k' : Chars)
    (v : PyValue) (h : k ≠ k') :
    dictGet (dictSet kvs k v) k' = dictGet kvs k' := by
  induction kvs with
  | nil => simp [dictSet, dictGet, h]
  | cons hd t ih =>
      obtain ⟨k0, w⟩ := hd
      by_cases h0 : k0 = k
      · subst h0
        simp [dictSet, dictGet, h]
      · simp [dictSet, dictGet, h0, ih]

theorem mapMExc_ok_length (f : PyValue → Except Chars PyValue)
    (xs ys : List PyValue) (h : mapMExc f xs = .ok ys) :
    ys.length = xs.length := by
  induction xs generalizing ys with
  | nil =>
      simp [mapMExc] at h
      subst h
      rfl
  | cons x t ih =>
      simp only [mapMExc, bind, Except.bind] at h
      rcases hx : f x with e | y0
      · rw [hx] at h
        exact absurd h (by simp)
      · rw [hx] at h
        rcases ht : mapMExc f t with e | ys0
        · rw [ht] at h
          exact absurd h (by simp)
        · rw [ht] at h
          simp only [Except.ok.injEq] at h
          subst h
          simp [ih ys0 ht]

theorem mapMExc_ok_mem (f : PyValue → Except Chars PyValue)
    (xs ys : List PyValue) (h : mapMExc f xs = .ok ys) :
    ∀ y ∈ ys, ∃ x ∈ xs, f x = .ok y := by
  induction xs generalizing ys with
  | nil =>
      simp [mapMExc] at h
      subst h
      intro y hy
      exact absurd hy (by simp)
  | cons x t ih =>
      simp only [mapMExc, bind, Except.bind] at h
      rcases hx : f x with e | y0
      · rw [hx] at h
        exact absurd h (by simp)
      · rw [hx] at h
        rcases ht : mapMExc f t with e | ys0
        · rw [ht] at h
          exact absurd h (by simp)
        · rw [ht] at h
          simp only [Except.ok.injEq] at h
          subst h
          intro y hy
          rcases List.mem_cons.mp hy with h1 | h2
          · exact ⟨x, by simp, h1 ▸ hx⟩
          · rcases ih ys0 ht y h2 with ⟨x', hx', hfx'⟩
            exact ⟨x', by simp [hx'], hfx'⟩

theorem mapMExc_ok_of_id (f : PyValue → Except Chars PyValue)
    (xs : List PyValue) (h : ∀ x ∈ xs, f x = .ok x) :
    mapMExc f xs = .ok xs := by
  induction xs with
  | nil => simp [mapMExc]
  | cons x t ih =>
      have hx : f x = .ok x := h x (by simp)
      have ht : mapMExc f t = .ok t := ih (fun y hy => h y (by simp [hy]))
      simp [mapMExc, bind, Except.bind, hx, ht]

theorem stageLimit_ok (v : PyValue) (m : Nat) (r : PyValue)
    (h : stageLimit v m = .ok r) :
    (recsOf r).length ≤ m ∧ hasRecKey r = true := by
  cases v with
  | dict kvs =>
      simp only [stageLimit, pyContains, bind, Except.bind] at h
      rcases hk : dictGet kvs "recommended_assessments".data with _ | w
      · rw [hk] at h
        simp only [Option.isSome_none, Bool.false_eq_true, if_false, pure,
          Except.pure, Except.ok.injEq] at h
        subst h
        constructor
        · simp [recsOf, dictGet]
        · simp [hasRecKey, dictGet]
      · rw [hk] at h
        simp only [Option.isSome_some, if_true, pyGetItemStr, hk] at h
        cases w with
        | list xs =>
            simp only [pySliceTo, bind, Except.bind, pure, Except.pure,
              Except.ok.injEq] at h
            subst h
            constructor
            · simp [recsOf, dictGet_dictSet_self]
            · simp [hasRecKey, dictGet_dictSet_self]
        | str s =>
            simp only [pySliceTo, bind, Except.bind, pure, Except.pure,
              Except.ok.injEq] at h
            subst h
            constructor
            · simp [recsOf, dictGet_dictSet_self]
            · simp [hasRecKey, dictGet_dictSet_self]
        | none => simp [pySliceTo, bind, Except.bind] at h
        | bool b => simp [pySliceTo, bind, Except.bind] at h
        | int n => simp [pySliceTo, bind, Except.bind] at h
        | dict kvs2 => simp [pySliceTo, bind, Except.bind] at h
  | str s =>
      simp only [stageLimit, pyContains, bind, Except.bind] at h
      cases hc : containsSub s "recommended_assessments".data with
      | true => rw [hc] at h; simp [pyGetItemStr, bind, Except.bind] at h
      | false =>
          rw [hc] at h
          simp only [Bool.false_eq_true, if_false, pure, Except.pure,
            Except.ok.injEq] at h
          subst h
          constructor
          · simp [recsOf, dictGet]
          · simp [hasRecKey, dictGet]
  | list xs =>
      simp only [stageLimit, pyContains, bind, Except.bind] at h
      cases hc : xs.contains (.str "recommended_assessments".data) with
      | true => rw [hc] at h; simp [pyGetItemStr, bind, Except.bind] at h
      | false =>
          rw [hc] at h
          simp only [Bool.false_eq_true, if_false, pure, Except.pure,
            Except.ok.injEq] at h
          subst h
          constructor
          · simp [recsOf, dictGet]
          · simp [hasRecKey, dictGet]
  | none => simp [stageLimit, pyContains, bind, Except.bind] at h
  | bool b => simp [stageLimit, pyContains, bind, Except.bind] at h
  | int n => simp [stageLimit, pyContains, bind, Except.bind] at h

theorem stageCoerce_ok (r r' : PyValue) (h : stageCoerce r = .ok r') :
    (recsOf r').length = (recsOf r).length ∧
      (hasRecKey r = true → hasRecKey r' = true) ∧
      ∀ y ∈ recsOf r', ∃ x ∈ recsOf r, fixRec x = .ok y := by
  cases r with
  | dict kvs =>
      simp only [stageCoerce] at h
      rcases hk : dictGet kvs "recommended_assessments".data with _ | w
      · rw [hk] at h
        simp only [mapMExc, bind, Except.bind, pure, Except.pure,
          Except.ok.injEq] at h
        subst h
        refine ⟨rfl, fun hh => hh, ?_⟩
        intro y hy
        exact ⟨y, hy, by
          simp only [recsOf, hk] at hy
          exact absurd hy (by simp)⟩
      · rw [hk] at h
        cases w with
        | list xs =>
            simp only [bind, Except.bind] at h
            rcases hm : mapMExc fixRec xs with e | ys
            · rw [hm] at h; exact absurd h (by simp)
            · rw [hm] at h
              simp only [pure, Except.pure, Except.ok.injEq] at h
              subst h
              refine ⟨?_, ?_, ?_⟩
              · simp [recsOf, dictGet_dictSet_self, hk,
                  mapMExc_ok_length fixRec xs ys hm]
              · intro _
                simp [hasRecKey, dictGet_dictSet_self]
              · intro y hy
                simp only [recsOf, dictGet_dictSet_self] at hy
                rcases mapMExc_ok_mem fixRec xs ys hm y hy with ⟨x, hx, hfx⟩
                exact ⟨x, by simp [recsOf, hk, hx], hfx⟩
        | str s =>
            simp only [bind, Except.bind] at h
            rcases hm : mapMExc fixRec (s.map fun c => PyValue.str [c])
              with e | ys
            · rw [hm] at h; exact absurd h (by simp)
            · rw [hm] at h
              simp only [pure, Except.pure, Except.ok.injEq] at h
              subst h
              refine ⟨rfl, fun hh => hh, ?_⟩
              intro y hy
              exact ⟨y, hy, by
                simp only [recsOf, hk] at hy
                exact absurd hy (by simp)⟩
        | dict inner =>
            simp only [bind, Except.bind] at h
            rcases hm : mapMExc fixRec (inner.map fun kv => PyValue.str kv.1)
              with e | ys
            · rw [hm] at h; exact absurd h (by simp)
            · rw [hm] at h
              simp only [pure, Except.pure, Except.ok.injEq] at h
              subst h
              refine ⟨rfl, fun hh => hh, ?_⟩
              intro y hy
              exact ⟨y, hy, by
                simp only [recsOf, hk] at hy
                exact absurd hy (by simp)⟩
        | none => exact absurd h (by simp)
        | bool b => exact absurd h (by simp)
        | int n => exact absurd h (by simp)
  | none => simp [stageCoerce] at h
  | bool b => simp [stageCoerce] at h
  | int n => simp [stageCoerce] at h
  | str s => simp [stageCoerce] at h
  | list xs => simp [stageCoerce] at h

/-- Every result of `recommend` is a dict carrying the key, its
recommendation list is bounded by `max_results`, and every returned record
went through the coercion loop body. -/
theorem recommend_post (raw : Chars) (m : Nat) :
    (recsOf (recommend raw m)).length ≤ m ∧
      hasRecKey (recommend raw m) = true ∧
      ∀ y ∈ recsOf (recommend raw m), ∃ x, fixRec x = .ok y := by
  rcases h : recommendExc raw m with e | v
  · have hr : recommend raw m =
        .dict [("error".data, .str e),
               ("recommended_assessments".data, .list [])] := by
      simp [recommend, h]
    rw [hr]
    refine ⟨?_, ?_, ?_⟩
    · simp +decide [recsOf, dictGet]
    · simp +decide [hasRecKey, dictGet]
    · intro y hy
      simp +decide [recsOf, dictGet] at hy
  · have hr : recommend raw m = v := by simp [recommend, h]
    rw [hr]
    simp only [recommendExc, recommendFromPayload, bind, Except.bind] at h
    rcases h1 : stageRename
        (match json_loads (jsonPayload raw) with
          | some v => v
          | Option.none => fallbackParse raw) with e1 | r1
    · simp only [h1] at h
      exact absurd h (by simp)
    · simp only [h1] at h
      rcases h2 : stageLimit r1 m with e2 | r2
      · simp only [h2] at h
        exact absurd h (by simp)
      · simp only [h2] at h
        have hl := stageLimit_ok r1 m r2 h2
        have hc := stageCoerce_ok r2 v h
        refine ⟨?_, ?_, ?_⟩
        · rw [hc.1]; exact hl.1
        · exact hc.2.1 hl.2
        · intro y hy
          rcases hc.2.2 y hy with ⟨x, _, hfx⟩
          exact ⟨x, hfx⟩

theorem fixDur_ok_post (x y : PyValue) (h : fixDur x = .ok y) :
    ∀ kvs dv, y = .dict kvs → dictGet kvs "duration".data = some dv →
      isInstInt dv = true := by
  cases x with
  | dict kvs0 =>
      simp only [fixDur, pyContains, bind, Except.bind, pyGetItemStr] at h
      rcases hk : dictGet kvs0 "duration".data with _ | dv0
      · simp only [hk, Option.isSome_none, Bool.false_eq_true, if_false,
          pure, Except.pure, Except.ok.injEq] at h
        subst h
        intro kvs dv hy hdv
        rw [PyValue.dict.inj hy] at hk
        rw [hk] at hdv
        exact absurd hdv (by simp)
      · simp only [hk, Option.isSome_some, if_true, bind, Except.bind] at h
        by_cases hins : isInstInt dv0 = true
        · rw [if_neg (by simp [hins])] at h
          simp only [pure, Except.pure, Except.ok.injEq] at h
          subst h
          intro kvs dv hy hdv
          rw [PyValue.dict.inj hy] at hk
          rw [hk] at hdv
          rw [Option.some_inj.mp hdv] at hins
          exact hins
        · rw [if_pos (by simp [hins])] at h
          simp only [pure, Except.pure, Except.ok.injEq] at h
          subst h
          intro kvs dv hy hdv
          rw [← PyValue.dict.inj hy] at hdv
          rw [dictGet_dictSet_self] at hdv
          rcases ho : pyToIntOpt dv0 with _ | n <;> simp only [ho] at hdv <;>
            rw [← Option.some_inj.mp hdv] <;> rfl
  | str s =>
      simp only [fixDur, pyContains, bind, Except.bind] at h
      by_cases hc : containsSub s "duration".data = true
      · simp [hc, pyGetItemStr] at h
      · rw [if_neg hc] at h
        simp only [pure, Except.pure, Except.ok.injEq] at h
        subst h
        intro kvs dv hy
        exact absurd hy (by simp)
  | list xs =>
      simp only [fixDur, pyContains, bind, Except.bind] at h
      by_cases hc : xs.contains (.str "duration".data) = true
      · rw [if_pos hc] at h
        simp [pyGetItemStr] at h
      · rw [if_neg hc] at h
        simp only [pure, Except.pure, Except.ok.injEq] at h
        subst h
        intro kvs dv hy
        exact absurd hy (by simp)
  | none => simp [fixDur, pyContains, bind, Except.bind] at h
  | bool b => simp [fixDur, pyContains, bind, Except.bind] at h
  | int n => simp [fixDur, pyContains, bind, Except.bind] at h

theorem fixTT_ok_post (x y : PyValue) (h : fixTT x = .ok y) :
    ∀ kvs tv, y = .dict kvs → dictGet kvs "test_type".data = some tv →
      tv.isList = true := by
  cases x with
  | dict kvs0 =>
      simp only [fixTT, pyContains, bind, Except.bind, pyGetItemStr] at h
      rcases hk : dictGet kvs0 "test_type".data with _ | tv0
      · simp only [hk, Option.isSome_none, Bool.false_eq_true, if_false,
          pure, Except.pure, Except.ok.injEq] at h
        subst h
        intro kvs tv hy htv
        rw [PyValue.dict.inj hy] at hk
        rw [hk] at htv
        exact absurd htv (by simp)
      · simp only [hk, Option.isSome_some, if_true, bind, Except.bind] at h
        by_cases hins : tv0.isList = true
        · rw [if_neg (by simp [hins])] at h
          simp only [pure, Except.pure, Except.ok.injEq] at h
          subst h
          intro kvs tv hy htv
          rw [PyValue.dict.inj hy] at hk
          rw [hk] at htv
          rw [Option.some_inj.mp htv] at hins
          exact hins
        · rw [if_pos (by simp [hins])] at h
          simp only [pure, Except.pure, Except.ok.injEq] at h
          subst h
          intro kvs tv hy htv
          rw [← PyValue.dict.inj hy] at htv
          rw [dictGet_dictSet_self] at htv
          cases tv0 <;> simp only at htv <;>
            rw [← Option.some_inj.mp htv] <;> rfl
  | str s =>
      simp only [fixTT, pyContains, bind, Except.bind] at h
      by_cases hc : containsSub s "test_type".data = true
      · rw [if_pos hc] at h
        simp [pyGetItemStr] at h
      · rw [if_neg hc] at h
        simp only [pure, Except.pure, Except.ok.injEq] at h
        subst h
        intro kvs tv hy
        exact absurd hy (by simp)
  | list xs =>
      simp only [fixTT, pyContains, bind, Except.bind] at h
      by_cases hc : xs.contains (.str "test_type".data) = true
      · rw [if_pos hc] at h
        simp [pyGetItemStr] at h
      · rw [if_neg hc] at h
        simp only [pure, Except.pure, Except.ok.injEq] at h
        subst h
        intro kvs tv hy
        exact absurd hy (by simp)
  | none => simp [fixTT, pyContains, bind, Except.bind] at h
  | bool b => simp [fixTT, pyContains, bind, Except.bind] at h
  | int n => simp [fixTT, pyContains, bind, Except.bind] at h

theorem fixTT_pres_dur (x y : PyValue) (h : fixTT x = .ok y) :
    ∀ kvs dv, y = .dict kvs → dictGet kvs "duration".data = some dv →
      ∃ kvs0, x = .dict kvs0 ∧ dictGet kvs0 "duration".data = some dv := by
  cases x with
  | dict kvs0 =>
      simp only [fixTT, pyContains, bind, Except.bind, pyGetItemStr] at h
      rcases hk : dictGet kvs0 "test_type".data with _ | tv0
      · simp only [hk, Option.isSome_none, Bool.false_eq_true, if_false,
          pure, Except.pure, Except.ok.injEq] at h
        subst h
        intro kvs dv hy hdv
        exact ⟨kvs0, rfl, by rw [PyValue.dict.inj hy]; exact hdv⟩
      · simp only [hk, Option.isSome_some, if_true, bind, Except.bind] at h
        by_cases hins : tv0.isList = true
        · rw [if_neg (by simp [hins])] at h
          simp only [pure, Except.pure, Except.ok.injEq] at h
          subst h
          intro kvs dv hy hdv
          exact ⟨kvs0, rfl, by rw [PyValue.dict.inj hy]; exact hdv⟩
        · rw [if_pos (by simp [hins])] at h
          simp only [pure, Except.pure, Except.ok.injEq] at h
          subst h
          intro kvs dv hy hdv
          refine ⟨kvs0, rfl, ?_⟩
          rw [← PyValue.dict.inj hy] at hdv
          rwa [dictGet_dictSet_ne _ _ _ _ (by decide)] at hdv
  | str s =>
      simp only [fixTT, pyContains, bind, Except.bind] at h
      by_cases hc : containsSub s "test_type".data = true
      · rw [if_pos hc] at h
        simp [pyGetItemStr] at h
      · rw [if_neg hc] at h
        simp only [pure, Except.pure, Except.ok.injEq] at h
        subst h
        intro kvs dv hy
        exact absurd hy (by simp)
  | list xs =>
      simp only [fixTT, pyContains, bind, Except.bind] at h
      by_cases hc : xs.contains (.str "test_type".data) = true
      · rw [if_pos hc] at h
        simp [pyGetItemStr] at h
      · rw [if_neg hc] at h
        simp only [pure, Except.pure, Except.ok.injEq] at h
        subst h
        intro kvs dv hy
        exact absurd hy (by simp)
  | none => simp [fixTT, pyContains, bind, Except.bind] at h
  | bool b => simp [fixTT, pyContains, bind, Except.bind] at h
  | int n => simp [fixTT, pyContains, bind, Except.bind] at h

/-- Both coercion-loop postconditions for one record: whatever record comes
out, a present duration entry satisfies `isinstance(·, int)` and a present
test-type entry is a list. -/
theorem fixRec_ok_post (x y : PyValue) (h : fixRec x = .ok y) :
    (∀ kvs dv, y = .dict kvs → dictGet kvs "duration".data = some dv →
        isInstInt dv = true) ∧
      (∀ kvs tv, y = .dict kvs → dictGet kvs "test_type".data = some tv →
        tv.isList = true) := by
  simp only [fixRec, bind, Except.bind] at h
  rcases h1 : fixDur x with e | y1
  · rw [h1] at h
    exact absurd h (by simp)
  · rw [h1] at h
    constructor
    · intro kvs dv hy hdv
      rcases fixTT_pres_dur y1 y h kvs dv hy hdv with ⟨kvs0, hy1, hdv0⟩
      exact fixDur_ok_post x y1 h1 kvs0 dv hy1 hdv0
    · exact fixTT_ok_post y1 y h

/-! ## Lemmas about substring search, for the fenced-block claim -/

theorem isPrefixOf_append_self (l t : Chars) : l.isPrefixOf (l ++ t) = true := by
  rw [List.isPrefixOf_iff_prefix]
  exact List.prefix_append l t

theorem findSub_self_append (pat t : Chars) :
    findSub pat (pat ++ t) = some 0 := by
  cases hpt : pat ++ t with
  | nil => simp [findSub, hpt ▸ isPrefixOf_append_self pat t]
  | cons c r => simp [findSub, hpt ▸ isPrefixOf_append_self pat t]

/-- Searching for a pattern whose first character never occurs in a prefix
skips that prefix entirely. -/
theorem findSub_append_left (c0 : Char) (pt : Chars) (p t : Chars)
    (h : ∀ c ∈ p, c ≠ c0) :
    findSub (c0 :: pt) (p ++ t) = (findSub (c0 :: pt) t).map (· + p.length) := by
  induction p with
  | nil =>
      simp only [List.nil_append, List.length_nil]
      cases hf : findSub (c0 :: pt) t with
      | none => rfl
      | some j => simp
  | cons c p' ih =>
      have hne : ¬ (c0 :: pt).isPrefixOf (c :: (p' ++ t)) = true := by
        have hc : c ≠ c0 := h c (List.mem_cons_self c p')
        simp [List.isPrefixOf]
        intro hcc
        exact absurd hcc.symm hc
      show findSub (c0 :: pt) (c :: (p' ++ t)) = _
      rw [findSub, if_neg hne, ih (fun c hc => h c (List.mem_cons_of_mem _ hc))]
      cases findSub (c0 :: pt) t with
      | none => rfl
      | some j =>
          simp only [Option.map_some', List.length_cons]
          congr 1

theorem drop_append_len (p t : Chars) (k : Nat) :
    (p ++ t).drop (p.length + k) = t.drop k := by
  rw [← List.drop_drop, List.drop_left]

/-- The fenced-block regex on a reply of the shape
`prose ++ "```json" ++ block ++ "```" ++ prose`, with no backtick in the
leading prose or in the block: group 1 is the stripped block. -/
theorem extractFenced_of_shape (p1 s p2 : Chars)
    (hp1 : ∀ c ∈ p1, c ≠ '`') (hs : ∀ c ∈ s, c ≠ '`') :
    extractFenced (p1 ++ "```json".data ++ s ++ "```".data ++ p2) =
      some (pyStrip s) := by
  have h0 : findSub "```json".data
      ("```json".data ++ (s ++ ("```".data ++ p2))) = some 0 :=
    findSub_self_append _ _
  have h1 : findSub "```json".data
      (p1 ++ ("```json".data ++ (s ++ ("```".data ++ p2)))) =
        some p1.length := by
    rw [show ("```json".data : Chars) = '`' :: "``json".data from rfl] at h0 ⊢
    rw [findSub_append_left '`' "``json".data p1 _ hp1, h0]
    simp
  have h2 : findSub "```".data ("```".data ++ p2) = some 0 :=
    findSub_self_append _ _
  have h3 : findSub "```".data (s ++ ("```".data ++ p2)) = some s.length := by
    rw [show ("```".data : Chars) = '`' :: "``".data from rfl] at h2 ⊢
    rw [findSub_append_left '`' "``".data s _ hs, h2]
    simp
  have hassoc : p1 ++ "```json".data ++ s ++ "```".data ++ p2 =
      p1 ++ ("```json".data ++ (s ++ ("```".data ++ p2))) := by
    simp [List.append_assoc]
  have hdrop : (p1 ++ ("```json".data ++ (s ++ ("```".data ++ p2)))).drop
      (p1.length + 7) = s ++ ("```".data ++ p2) := by
    rw [drop_append_len]
    rw [show (7 : Nat) = ("```json".data : Chars).length from rfl]
    rw [List.drop_left]
  rw [extractFenced, hassoc, h1]
  simp only [hdrop, h3, List.take_left]

set_option maxRecDepth 10000

/-! ## Claim theorems -/

/-- C1: for every generative-model reply and every requested maximum, the
list returned by `SHLRecommendationEngine.recommend` under the
`recommended_assessments` key has length at most `max_results` (at most 10
under the default), on every parse path including the regex fallback. -/
theorem recommend_count_le_max :
    (∀ raw max_results,
        (recsOf (recommend raw max_results)).length ≤ max_results) ∧
      ∀ raw, (recsOf (recommendDefault raw)).length ≤ 10 :=
  ⟨fun raw m => (recommend_post raw m).1,
   fun raw => (recommend_post raw 10).1⟩

/-- C2 counterexample: a reply whose record carries the well-formed integer
duration `-5` is returned with that negative duration, so the returned
duration is not always a non-negative integer. -/
theorem recommend_duration_negative_cex :
    recsOf (recommend
        "\x7b\"recommended_assessments\":[\x7b\"url\":\"u\",\"duration\":-5\x7d]\x7d".data
        10) =
      [.dict [("url".data, .str "u".data), ("duration".data, .int (-5))]] ∧
      ((-5 : Int) < 0) := by
  constructor
  · decide
  · decide

/-- C2 amended: every record in the returned list that carries a duration
field carries it as a Python integer (`isinstance(·, int)`, booleans
included); string values are re-parsed and parse failures default to zero,
but the value may be negative and a record without the field stays without
it. -/
theorem recommend_duration_isinstance_int (raw : Chars) (m : Nat)
    (kvs : List (Chars × PyValue)) (dv : PyValue)
    (hmem : PyValue.dict kvs ∈ recsOf (recommend raw m))
    (hdv : dictGet kvs "duration".data = some dv) :
    isInstInt dv = true := by
  rcases (recommend_post raw m).2.2 _ hmem with ⟨x, hfx⟩
  exact (fixRec_ok_post x _ hfx).1 kvs dv rfl hdv

/-- C2 witness: on a reply with the string duration `"30"`, the returned
record carries the integer `30` and the amended invariant holds there. -/
theorem recommend_duration_isinstance_int_witness :
    PyValue.dict [("url".data, .str "u".data), ("duration".data, .int 30)] ∈
        recsOf (recommend
          "\x7b\"recommended_assessments\":[\x7b\"url\":\"u\",\"duration\":\"30\"\x7d]\x7d".data
          10) ∧
      isInstInt (.int 30) = true :=
  ⟨by decide,
   recommend_duration_isinstance_int
     "\x7b\"recommended_assessments\":[\x7b\"url\":\"u\",\"duration\":\"30\"\x7d]\x7d".data
     10 [("url".data, .str "u".data), ("duration".data, .int 30)] (.int 30)
     (by decide) (by decide)⟩

/-- C3 counterexample: a reply whose record carries `test_type: [1, 2]` is
returned with the integer elements untouched, so the returned test-type is
not always a list of strings. -/
theorem recommend_testtype_nonstring_cex :
    recsOf (recommend
        "\x7b\"recommended_assessments\":[\x7b\"url\":\"u\",\"test_type\":[1,2]\x7d]\x7d".data
        10) =
      [.dict [("url".data, .str "u".data),
              ("test_type".data, .list [.int 1, .int 2])]] ∧
      (PyValue.int 1).isStr = false := by
  constructor
  · decide
  · decide

/-- C3 amended: every record in the returned list that carries a test-type
field carries it as a list (a bare string is wrapped into a singleton and
any other non-list becomes `[]`), but the elements are not coerced to
strings and a record without the field stays without it. -/
theorem recommend_testtype_is_list (raw : Chars) (m : Nat)
    (kvs : List (Chars × PyValue)) (tv : PyValue)
    (hmem : PyValue.dict kvs ∈ recsOf (recommend raw m))
    (htv : dictGet kvs "test_type".data = some tv) :
    tv.isList = true := by
  rcases (recommend_post raw m).2.2 _ hmem with ⟨x, hfx⟩
  exact (fixRec_ok_post x _ hfx).2 kvs tv rfl htv

/-- C3 witness: on a reply with the bare string test-type `"K"`, the
returned record carries the singleton list `["K"]` and the amended
invariant holds there. -/
theorem recommend_testtype_is_list_witness :
    PyValue.dict [("url".data, .str "u".data),
        ("test_type".data, .list [.str "K".data])] ∈
      recsOf (recommend
        "\x7b\"recommended_assessments\":[\x7b\"url\":\"u\",\"test_type\":\"K\"\x7d]\x7d".data
        10) ∧
      (PyValue.list [.str "K".data]).isList = true :=
  ⟨by decide,
   recommend_testtype_is_list
     "\x7b\"recommended_assessments\":[\x7b\"url\":\"u\",\"test_type\":\"K\"\x7d]\x7d".data
     10 [("url".data, .str "u".data), ("test_type".data, .list [.str "K".data])]
     (.list [.str "K".data]) (by decide) (by decide)⟩

/-- C4 counterexample: on the entirely unparseable reply `hello world`
(no fenced block, not JSON, fallback regex finds nothing) the engine
returns the empty recommendation list but attaches no error description —
the `error` entry exists only on the exception path. -/
theorem recommend_unparseable_noerror_cex :
    extractFenced "hello world".data = Option.none ∧
      json_loads "hello world".data = Option.none ∧
      fallbackFind "hello world".data = Option.none ∧
      recommend "hello world".data 10 =
        .dict [("recommended_assessments".data, .list [])] ∧
      errorOf (recommend "hello world".data 10) = Option.none := by
  refine ⟨by decide, by decide, by decide, by decide, by decide⟩

/-- C4 amended: for every reply with no fenced block, that is not valid
JSON, and on which the fallback regex finds no structure, `recommend`
returns exactly the one-entry dict mapping `recommended_assessments` to the
empty list — no exception, and also no error annotation. -/
theorem recommend_unparseable_empty (raw : Chars) (m : Nat)
    (h1 : extractFenced raw = Option.none)
    (h2 : json_loads raw = Option.none)
    (h3 : fallbackFind raw = Option.none) :
    recommend raw m = .dict [("recommended_assessments".data, .list [])] := by
  have hpay : jsonPayload raw = raw := by simp [jsonPayload, h1]
  simp +decide [recommend, recommendExc, recommendFromPayload, hpay, h2, h3,
    fallbackParse, stageRename, stageLimit, stageCoerce, pyContains,
    pyGetItemStr, pySliceTo, dictGet, dictSet, mapMExc, bind, Except.bind,
    pure, Except.pure]

/-- C4 witness: the amended statement at the concrete unparseable reply
`no json here at all`. -/
theorem recommend_unparseable_empty_witness :
    recommend "no json here at all".data 7 =
      .dict [("recommended_assessments".data, .list [])] :=
  recommend_unparseable_empty "no json here at all".data 7
    (by decide) (by decide) (by decide)

/-- C5 counterexample: on the scripted reply the engine does return exactly
one recommendation with url `u`, but its `duration` and `test_type` fields
are not the scripted `"30"` and `"K"`: they come back as the integer `30`
and the list `["K"]`, so the other fields are not all unmodified. -/
theorem recommend_scripted_modified_cex :
    recsOf (recommend
        "\x7b\"recommendations\":[\x7b\"assessment_name\":\"X\",\"url\":\"u\",\"remote_testing_support\":\"Yes\",\"adaptive_irt_support\":\"No\",\"duration\":\"30\",\"test_type\":\"K\"\x7d]\x7d".data
        10) =
      [.dict [("assessment_name".data, .str "X".data),
              ("url".data, .str "u".data),
              ("remote_testing_support".data, .str "Yes".data),
              ("adaptive_irt_support".data, .str "No".data),
              ("duration".data, .int 30),
              ("test_type".data, .list [.str "K".data])]] ∧
      dictGet [("assessment_name".data, .str "X".data),
              ("url".data, .str "u".data),
              ("remote_testing_support".data, .str "Yes".data),
              ("adaptive_irt_support".data, .str "No".data),
              ("duration".data, .int 30),
              ("test_type".data, .list [.str "K".data])] "duration".data ≠
        some (.str "30".data) ∧
      dictGet [("assessment_name".data, .str "X".data),
              ("url".data, .str "u".data),
              ("remote_testing_support".data, .str "Yes".data),
              ("adaptive_irt_support".data, .str "No".data),
              ("duration".data, .int 30),
              ("test_type".data, .list [.str "K".data])] "test_type".data ≠
        some (.str "K".data) := by
  refine ⟨by decide, by decide, by decide⟩

/-- C5 amended: on the scripted reply the engine returns exactly one
recommendation, under the renamed `recommended_assessments` key, with url
`u` and with `assessment_name`, `remote_testing_support` and
`adaptive_irt_support` unmodified, while `duration` is coerced to the
integer `30` and `test_type` is wrapped into the list `["K"]`. -/
theorem recommend_scripted_amended :
    recommend
        "\x7b\"recommendations\":[\x7b\"assessment_name\":\"X\",\"url\":\"u\",\"remote_testing_support\":\"Yes\",\"adaptive_irt_support\":\"No\",\"duration\":\"30\",\"test_type\":\"K\"\x7d]\x7d".data
        10 =
      .dict [("recommended_assessments".data, .list
        [.dict [("assessment_name".data, .str "X".data),
                ("url".data, .str "u".data),
                ("remote_testing_support".data, .str "Yes".data),
                ("adaptive_irt_support".data, .str "No".data),
                ("duration".data, .int 30),
                ("test_type".data, .list [.str "K".data])]])] := by
  decide

/-- C6: when the reply contains a ```json fenced code block, the payload
handed to `json.loads` is the content of that block (whitespace-stripped,
exactly as the regex's `\s*` groups do), not the surrounding prose, and the
rest of `recommend` runs on that payload; when the reply contains no
```json marker at all, the whole reply is the payload. -/
theorem fenced_block_is_payload :
    (∀ p1 s p2 : Chars, ∀ m : Nat,
        (∀ c ∈ p1, c ≠ '`') → (∀ c ∈ s, c ≠ '`') →
        extractFenced (p1 ++ "```json".data ++ s ++ "```".data ++ p2) =
            some (pyStrip s) ∧
          jsonPayload (p1 ++ "```json".data ++ s ++ "```".data ++ p2) =
            pyStrip s ∧
          recommendExc (p1 ++ "```json".data ++ s ++ "```".data ++ p2) m =
            recommendFromPayload (pyStrip s)
              (p1 ++ "```json".data ++ s ++ "```".data ++ p2) m) ∧
      ∀ raw : Chars, containsSub raw "```json".data = false →
        jsonPayload raw = raw := by
  constructor
  · intro p1 s p2 m hp1 hs
    have he := extractFenced_of_shape p1 s p2 hp1 hs
    refine ⟨he, ?_, ?_⟩
    · rw [jsonPayload, he]
    · rw [recommendExc, jsonPayload, he]
  · intro raw hraw
    have hnone : findSub "```json".data raw = Option.none := by
      rw [containsSub] at hraw
      exact Option.not_isSome_iff_eq_none.mp (by simp [hraw])
    rw [jsonPayload, extractFenced, hnone]

/-- C6 witness: on a reply with prose around a fenced block the extracted
payload is the block's stripped content, and on a reply without a ```json
marker the payload is the whole reply. -/
theorem fenced_block_is_payload_witness :
    (extractFenced ("Answer:\n".data ++ "```json".data ++
          " \x7b\"recommended_assessments\": []\x7d ".data ++ "```".data ++
          "\nDone.".data) =
        some (pyStrip " \x7b\"recommended_assessments\": []\x7d ".data) ∧
      jsonPayload ("Answer:\n".data ++ "```json".data ++
          " \x7b\"recommended_assessments\": []\x7d ".data ++ "```".data ++
          "\nDone.".data) =
        pyStrip " \x7b\"recommended_assessments\": []\x7d ".data ∧
      recommendExc ("Answer:\n".data ++ "```json".data ++
          " \x7b\"recommended_assessments\": []\x7d ".data ++ "```".data ++
          "\nDone.".data) 10 =
        recommendFromPayload
          (pyStrip " \x7b\"recommended_assessments\": []\x7d ".data)
          ("Answer:\n".data ++ "```json".data ++
            " \x7b\"recommended_assessments\": []\x7d ".data ++ "```".data ++
            "\nDone.".data) 10) ∧
      jsonPayload "plain prose reply".data = "plain prose reply".data :=
  ⟨fenced_block_is_payload.1 "Answer:\n".data
      " \x7b\"recommended_assessments\": []\x7d ".data "\nDone.".data 10
      (by decide) (by decide),
   fenced_block_is_payload.2 "plain prose reply".data (by decide)⟩

/-- Fallback-reconstructed records pass the coercion loop unchanged: their
duration is already an `int` and their test-type already a list. -/
theorem fixRec_fallbackItemRec (item : Chars) :
    fixRec (fallbackItemRec item) = .ok (fallbackItemRec item) := by
  simp +decide [fixRec, fixDur, fixTT, fallbackItemRec, pyContains,
    pyGetItemStr, dictGet, bind, Except.bind, pure, Except.pure, isInstInt,
    PyValue.isList]

/-- C7: per reconstructed item, each of the six expected fields is the
regex-extracted value when its pattern matches and the fixed sentinel
(`""`, `0`, `[]`) when it does not; and on any reply that fails JSON
parsing but on which the structure regex matches, `recommend` returns
exactly the reconstructed records (url-filtered, bounded). -/
theorem fallback_field_recovery :
    (∀ item : Chars,
        (∀ v, findStrField "url".data item = some v →
            fieldOf (fallbackItemRec item) "url".data =
              some (.str (pyStrip v))) ∧
        (findStrField "url".data item = Option.none →
            fieldOf (fallbackItemRec item) "url".data = some (.str [])) ∧
        (∀ v, findStrField "adaptive_support".data item = some v →
            fieldOf (fallbackItemRec item) "adaptive_support".data =
              some (.str (pyStrip v))) ∧
        (findStrField "adaptive_support".data item = Option.none →
            fieldOf (fallbackItemRec item) "adaptive_support".data =
              some (.str [])) ∧
        (∀ v, findStrField "description".data item = some v →
            fieldOf (fallbackItemRec item) "description".data =
              some (.str (pyStrip v))) ∧
        (findStrField "description".data item = Option.none →
            fieldOf (fallbackItemRec item) "description".data =
              some (.str [])) ∧
        (∀ n, findDurField item = some n →
            fieldOf (fallbackItemRec item) "duration".data =
              some (.int (n : Int))) ∧
        (findDurField item = Option.none →
            fieldOf (fallbackItemRec item) "duration".data =
              some (.int 0)) ∧
        (∀ v, findStrField "remote_support".data item = some v →
            fieldOf (fallbackItemRec item) "remote_support".data =
              some (.str (pyStrip v))) ∧
        (findStrField "remote_support".data item = Option.none →
            fieldOf (fallbackItemRec item) "remote_support".data =
              some (.str [])) ∧
        (∀ g, findTTField item = some g →
            fieldOf (fallbackItemRec item) "test_type".data =
              some (.list ((findQuoted g).map (fun v => .str v)))) ∧
        (findTTField item = Option.none →
            fieldOf (fallbackItemRec item) "test_type".data =
              some (.list []))) ∧
      ∀ raw : Chars, ∀ m : Nat, ∀ inner : Chars,
        json_loads (jsonPayload raw) = Option.none →
        fallbackFind raw = some inner →
        recommend raw m =
          .dict [("recommended_assessments".data,
            .list ((((findItems inner).map fallbackItemRec).filter
              urlKeep).take m))] := by
  constructor
  · intro item
    refine ⟨?_, ?_, ?_, ?_, ?_, ?_, ?_, ?_, ?_, ?_, ?_, ?_⟩ <;>
      first
        | (intro v hv
           simp +decide [fieldOf, fallbackItemRec, dictGet, hv])
        | (intro hv
           simp +decide [fieldOf, fallbackItemRec, dictGet, hv])
  · intro raw m inner hjs hfb
    have hparsed : (match json_loads (jsonPayload raw) with
        | some v => v
        | Option.none => fallbackParse raw) =
          .dict [("recommended_assessments".data,
            .list (((findItems inner).map fallbackItemRec).filter urlKeep))] := by
      rw [hjs, fallbackParse, hfb]
    have h1 : stageRename (.dict [("recommended_assessments".data,
        .list (((findItems inner).map fallbackItemRec).filter urlKeep))]) =
          .ok (.dict [("recommended_assessments".data,
            .list (((findItems inner).map fallbackItemRec).filter urlKeep))]) := by
      simp +decide [stageRename, pyContains, dictGet, bind, Except.bind,
        pure, Except.pure]
    have h2 : stageLimit (.dict [("recommended_assessments".data,
        .list (((findItems inner).map fallbackItemRec).filter urlKeep))]) m =
          .ok (.dict [("recommended_assessments".data,
            .list ((((findItems inner).map fallbackItemRec).filter
              urlKeep).take m))]) := by
      simp +decide [stageLimit, pyContains, pyGetItemStr, pySliceTo, dictGet,
        dictSet, bind, Except.bind, pure, Except.pure]
    have hmm : mapMExc fixRec
        ((((findItems inner).map fallbackItemRec).filter urlKeep).take m) =
          .ok ((((findItems inner).map fallbackItemRec).filter
            urlKeep).take m) := by
      refine mapMExc_ok_of_id _ _ ?_
      intro x hx
      have hx1 : x ∈ ((findItems inner).map fallbackItemRec).filter urlKeep :=
        List.mem_of_mem_take hx
      have hx2 : x ∈ (findItems inner).map fallbackItemRec :=
        (List.mem_filter.mp hx1).1
      rcases List.mem_map.mp hx2 with ⟨item, _, hitem⟩
      rw [← hitem]
      exact fixRec_fallbackItemRec item
    have h3 : stageCoerce (.dict [("recommended_assessments".data,
        .list ((((findItems inner).map fallbackItemRec).filter
          urlKeep).take m))]) =
          .ok (.dict [("recommended_assessments".data,
            .list ((((findItems inner).map fallbackItemRec).filter
              urlKeep).take m))]) := by
      simp +decide [stageCoerce, dictGet, dictSet, hmm, bind, Except.bind,
        pure, Except.pure]
    rw [recommend, recommendExc, recommendFromPayload]
    simp only [bind, Except.bind, hparsed, h1, h2, h3]

/-- C7 witness: on a malformed reply the fallback recovers `url`,
`duration` and `remote_support`, the missing `description` becomes the
empty sentinel, and the pipeline returns exactly the reconstructed
record. -/
theorem fallback_field_recovery_witness :
    fieldOf (fallbackItemRec
        "\"url\": \"u\", \"duration\": 30, \"remote_support\": \"Yes\"".data)
        "url".data = some (.str (pyStrip "u".data)) ∧
      fieldOf (fallbackItemRec
        "\"url\": \"u\", \"duration\": 30, \"remote_support\": \"Yes\"".data)
        "description".data = some (.str []) ∧
      recommend
          "garbage \x7b\"recommended_assessments\": [\x7b\"url\": \"u\", \"duration\": 30, \"remote_support\": \"Yes\"\x7d] \x7d trailing".data
          10 =
        .dict [("recommended_assessments".data,
          .list ((((findItems
            "\x7b\"url\": \"u\", \"duration\": 30, \"remote_support\": \"Yes\"\x7d".data).map
              fallbackItemRec).filter urlKeep).take 10))] :=
  ⟨(fallback_field_recovery.1
      "\"url\": \"u\", \"duration\": 30, \"remote_support\": \"Yes\"".data).1
      "u".data (by decide),
   (fallback_field_recovery.1
      "\"url\": \"u\", \"duration\": 30, \"remote_support\": \"Yes\"".data).2.2.2.2.2.1
      (by decide),
   fallback_field_recovery.2
      "garbage \x7b\"recommended_assessments\": [\x7b\"url\": \"u\", \"duration\": 30, \"remote_support\": \"Yes\"\x7d] \x7d trailing".data
      10
      "\x7b\"url\": \"u\", \"duration\": 30, \"remote_support\": \"Yes\"\x7d".data
      (by decide) (by decide)⟩

/-- C8: for every engine-initialization outcome and every engine-call
outcome, the `/recommend` request path yields either a normal response or
an HTTP 500 whose detail is one of the two handler messages carrying the
exception text; an exception raised by the engine call itself surfaces as
the 500 with `Error generating recommendations:` plus that exception's
message — no exception leaves the boundary unwrapped. -/
theorem api_errors_are_500 :
    (∀ (initRes : Except Chars Unit) (engineRes : Except Chars PyValue),
        (∃ body, recommendEndpointWith initRes engineRes = .ok body) ∨
          ∃ msg,
            recommendEndpointWith initRes engineRes =
                .httpError 500
                  ("Failed to initialize recommendation engine: ".data ++ msg) ∨
              recommendEndpointWith initRes engineRes =
                .httpError 500
                  ("Error generating recommendations: ".data ++ msg)) ∧
      ∀ e : Chars,
        recommendEndpointWith (.ok ()) (.error e) =
          .httpError 500 ("Error generating recommendations: ".data ++ e) := by
  constructor
  · intro initRes engineRes
    cases initRes with
    | error e => exact Or.inr ⟨e, Or.inl rfl⟩
    | ok u =>
        rcases h : handlerBody engineRes with e | v
        · exact Or.inr ⟨e, Or.inr (by
            simp [recommendEndpointWith, get_recommendations, h])⟩
        · exact Or.inl ⟨v, by
            simp [recommendEndpointWith, get_recommendations, h]⟩
  · intro e
    rfl

/-- C9: every raw row the transform step writes follows the consistent
schema: the flags become exactly `Yes` when the source lowercases to
`true` and `No` otherwise; the test-type letters expand through the fixed
eight-entry table in input order with unknown letters dropped; and the
duration is the parsed `assessment_length` when it is a digit string
(hence non-negative) and `0` otherwise. -/
theorem transform_schema_fields (row : RawRow) (out : TransRow)
    (h : transformRow row = some out) :
    ((pyLower (row.irt_support.getD []) = "true".data →
        out.adaptive_support = "Yes".data) ∧
      (pyLower (row.irt_support.getD []) ≠ "true".data →
        out.adaptive_support = "No".data)) ∧
    ((pyLower (row.remote_support.getD []) = "true".data →
        out.remote_support = "Yes".data) ∧
      (pyLower (row.remote_support.getD []) ≠ "true".data →
        out.remote_support = "No".data)) ∧
    out.test_type = (row.test_type.getD []).filterMap ttFull ∧
    ttFull 'A' = some "Ability & Aptitude".data ∧
    ttFull 'B' = some "Biodata & Situational Judgement".data ∧
    ttFull 'C' = some "Competencies".data ∧
    ttFull 'D' = some "Development & 360".data ∧
    ttFull 'E' = some "Assessment Exercises".data ∧
    ttFull 'K' = some "Knowledge & Skills".data ∧
    ttFull 'P' = some "Personality & Behaviour".data ∧
    ttFull 'S' = some "Simulations".data ∧
    (∀ c : Char, c ∉ (['A', 'B', 'C', 'D', 'E', 'K', 'P', 'S'] : List Char) →
      ttFull c = Option.none) ∧
    (pyIsDigit (row.assessment_length.getD []) = true →
      out.duration = (digitsToNat (row.assessment_length.getD []) : Int) ∧
        0 ≤ out.duration) ∧
    (pyIsDigit (row.assessment_length.getD []) = false → out.duration = 0) := by
  rw [transformRow] at h
  by_cases hskip : (row.url.getD []).isEmpty = true ∨
      (row.test_type.getD []).isEmpty = true
  · rw [if_pos hskip] at h
    exact absurd h (by simp)
  · rw [if_neg hskip] at h
    rw [Option.some_inj] at h
    subst h
    refine ⟨⟨?_, ?_⟩, ⟨?_, ?_⟩, rfl, by decide, by decide, by decide,
      by decide, by decide, by decide, by decide, by decide, ?_, ?_, ?_⟩
    · intro hc; simp [expand_test_type, hc]
    · intro hc; simp [expand_test_type, hc]
    · intro hc; simp [expand_test_type, hc]
    · intro hc; simp [expand_test_type, hc]
    · intro c hc
      simp only [List.mem_cons, List.mem_singleton, not_or] at hc
      obtain ⟨h1, h2, h3, h4, h5, h6, h7, h8⟩ := hc
      simp [ttFull, h1, h2, h3, h4, h5, h6, h7, h8]
    · intro hd
      refine ⟨by simp [hd], by simp [hd]⟩
    · intro hd
      simp [hd]

/-- C9 witness: a concrete row with `irt_support = "True"`,
`remote_support = "false"`, `assessment_length = "45"` and
`test_type = "KP"` transforms to `Yes`/`No` flags, duration `45`, and the
two expanded category names in order. -/
theorem transform_schema_fields_witness :
    transformRow
        ⟨some "https://example.com/a".data, some "True".data,
          some "A test".data, some "45".data, some "false".data,
          some "KP".data⟩ =
      some ⟨"https://example.com/a".data, "Yes".data, "A test".data, 45,
        "No".data,
        ["Knowledge & Skills".data, "Personality & Behaviour".data]⟩ ∧
    TransRow.adaptive_support
        ⟨"https://example.com/a".data, "Yes".data, "A test".data, 45,
          "No".data,
          ["Knowledge & Skills".data, "Personality & Behaviour".data]⟩ =
      "Yes".data ∧
    TransRow.test_type
        ⟨"https://example.com/a".data, "Yes".data, "A test".data, 45,
          "No".data,
          ["Knowledge & Skills".data, "Personality & Behaviour".data]⟩ =
      ["Knowledge & Skills".data, "Personality & Behaviour".data] := by
  have happ := transform_schema_fields
    ⟨some "https://example.com/a".data, some "True".data,
      some "A test".data, some "45".data, some "false".data,
      some "KP".data⟩
    ⟨"https://example.com/a".data, "Yes".data, "A test".data, 45,
      "No".data,
      ["Knowledge & Skills".data, "Personality & Behaviour".data]⟩
    (by decide)
  refine ⟨by decide, happ.1.1 (by decide), Eq.trans happ.2.2.1 (by decide)⟩

/-- C10: the request model declares only `query`, so the `/recommend` path
produces the same outcome whether or not the body carries a `max_results`
entry (of any value, such as the 1-20 slider value app.py sends), and the
handler's fixed `max_results=10` bounds every successful response at 10
recommendations. -/
theorem api_ignores_max_results :
    (∀ (rawResp : Chars) (q : Chars) (extra : PyValue),
        recommendApi rawResp
            (.dict [("query".data, .str q), ("max_results".data, extra)]) =
          recommendApi rawResp (.dict [("query".data, .str q)])) ∧
      ∀ (rawResp : Chars) (body : PyValue) (v : PyValue),
        recommendApi rawResp body = .ok v → (recsOf v).length ≤ 10 := by
  constructor
  · intro rawResp q extra
    rfl
  · intro rawResp body v h
    rcases hq : parseRecommendationRequest body with e | q
    · rw [recommendApi, hq] at h
      exact absurd h (by simp)
    · rw [recommendApi, hq] at h
      have hpost := recommend_post rawResp 10
      rcases hR : recommend rawResp 10 with _ | b | n | s | xs | kvs <;>
        rw [hR] at hpost
      case none => exact absurd hpost.2.1 (by simp [hasRecKey])
      case bool => exact absurd hpost.2.1 (by simp [hasRecKey])
      case int => exact absurd hpost.2.1 (by simp [hasRecKey])
      case str => exact absurd hpost.2.1 (by simp [hasRecKey])
      case list => exact absurd hpost.2.1 (by simp [hasRecKey])
      case dict =>
        have hsome : (dictGet kvs "recommended_assessments".data).isSome =
            true := hpost.2.1
        rw [hR] at h
        rw [get_recommendations] at h
        have hbody : handlerBody (.ok (.dict kvs)) = .ok (.dict kvs) := by
          simp only [handlerBody, bind, Except.bind, pyContains, hsome]
          rw [if_neg (by simp)]
          rfl
        rw [hbody] at h
        simp only [ApiResult.ok.injEq] at h
        subst h
        exact hpost.1

/-- C10 witness: on a concrete unparseable model reply and a body carrying
`max_results`, the endpoint returns the empty recommendation object and
its recommendation count is within the fixed bound of 10. -/
theorem api_ignores_max_results_witness :
    recommendApi "no structured reply".data
        (.dict [("query".data, .str "hire Java developers".data),
                ("max_results".data, .int 20)]) =
      .ok (.dict [("recommended_assessments".data, .list [])]) ∧
      (recsOf (.dict [("recommended_assessments".data, .list [])])).length ≤
        10 :=
  ⟨by decide,
   api_ignores_max_results.2 "no structured reply".data
     (.dict [("query".data, .str "hire Java developers".data),
             ("max_results".data, .int 20)])
     (.dict [("recommended_assessments".data, .list [])]) (by decide)⟩
